import Mathlib

/-!
Verification of the Ultimate Tic-Tac-Toe rules engine (`board.py`).

The `Board` class is embedded shallowly: the 9×9 numpy grid becomes a
`List (List Nat)` (0 = empty, 1 = Player 1, 2 = Player 2), the per-subgrid
win list and scalar fields become structure fields, and each mutating
method becomes a pure function from the old `Board` to either the new
`Board` or an error paired with the state held at the moment the Python
code raises (all raises in the source occur before any field write).
-/

namespace UTTT

/-- Read cell (r, c) of the 9×9 grid; out-of-range reads default to 0,
mirroring that the Python code only indexes in range. -/
def getCell (g : List (List Nat)) (r c : Nat) : Nat :=
  (g.getD r []).getD c 0

/-- Write value v at cell (r, c) of the grid (`self.board[row, col] = value`). -/
def setCell (g : List (List Nat)) (r c v : Nat) : List (List Nat) :=
  g.set r ((g.getD r []).set c v)

/-- The state of `Board.__init__`: 9×9 grid, `subgrid_wins` list of 9,
`overall_winner` scalar, `next_subgrid` optional subgrid index. -/
structure Board where
  board : List (List Nat)
  subgrid_wins : List Nat
  overall_winner : Nat
  next_subgrid : Option Nat
deriving DecidableEq

/-- `Board.__init__`: all-empty grid, no subgrid winners, no overall winner,
no movement constraint. -/
def Board.init : Board :=
  { board := List.replicate 9 (List.replicate 9 0)
    subgrid_wins := List.replicate 9 0
    overall_winner := 0
    next_subgrid := none }

/-- `index_to_position(index, size)`: flat index to (row, col). -/
def index_to_position (index size : Nat) : Nat × Nat :=
  (index / size, index % size)

/-- `is_valid_move(row, col)`: the move must match the forced subgrid (when one
is set) and the target cell must be empty. -/
def is_valid_move (b : Board) (row col : Nat) : Bool :=
  (match b.next_subgrid with
   | some s => decide ((row / 3) * 3 + col / 3 = s)
   | none => true) &&
  (getCell b.board row col == 0)

/-- The 8-line scan of `check_subgrid_winner` for one player: 3 rows,
3 columns, main diagonal, anti-diagonal of subgrid s (via `get_subgrid`,
subgrid cell (i, j) is grid cell ((s/3)*3+i, (s%3)*3+j)). -/
def subgridHasLine (g : List (List Nat)) (s p : Nat) : Bool :=
  ((List.range 3).any fun i => (List.range 3).all fun j =>
      getCell g ((s / 3) * 3 + i) ((s % 3) * 3 + j) == p) ||
  ((List.range 3).any fun i => (List.range 3).all fun j =>
      getCell g ((s / 3) * 3 + j) ((s % 3) * 3 + i) == p) ||
  ((List.range 3).all fun i =>
      getCell g ((s / 3) * 3 + i) ((s % 3) * 3 + i) == p) ||
  ((List.range 3).all fun i =>
      getCell g ((s / 3) * 3 + i) ((s % 3) * 3 + (2 - i)) == p)

/-- `check_subgrid_winner(subgrid_index)`: player 1 is scanned before player 2;
the first player found with a line is written into `subgrid_wins`
unconditionally, with no write-once guard. -/
def check_subgrid_winner (b : Board) (s : Nat) : Board :=
  if subgridHasLine b.board s 1 then
    { b with subgrid_wins := b.subgrid_wins.set s 1 }
  else if subgridHasLine b.board s 2 then
    { b with subgrid_wins := b.subgrid_wins.set s 2 }
  else b

/-- The 20-line scan of `check_winner`: 9 rows, 9 columns, main diagonal and
anti-diagonal of the full 9×9 grid, at raw cell granularity. -/
def overallHasLine (g : List (List Nat)) (p : Nat) : Bool :=
  ((List.range 9).any fun i => (List.range 9).all fun j => getCell g i j == p) ||
  ((List.range 9).any fun i => (List.range 9).all fun j => getCell g j i == p) ||
  ((List.range 9).all fun i => getCell g i i == p) ||
  ((List.range 9).all fun i => getCell g i (8 - i) == p)

/-- `check_winner(player)`: record `player` as overall winner whenever some
full 9-cell line holds that value; otherwise leave the field alone. -/
def check_winner (b : Board) (p : Nat) : Board :=
  if overallHasLine b.board p then { b with overall_winner := p } else b

/-- `is_subgrid_full(subgrid_index)`: no cell of the subgrid is 0. -/
def is_subgrid_full (b : Board) (s : Nat) : Bool :=
  (List.range 3).all fun i => (List.range 3).all fun j =>
    getCell b.board ((s / 3) * 3 + i) ((s % 3) * 3 + j) != 0

/-- `update_next_subgrid(row, col)`: the next forced subgrid is
(row mod 3)*3 + (col mod 3), opened to free play when that subgrid is full
or already won. -/
def update_next_subgrid (b : Board) (row col : Nat) : Board :=
  let n := (row % 3) * 3 + col % 3
  if is_subgrid_full b n || b.subgrid_wins.getD n 0 != 0 then
    { b with next_subgrid := none }
  else
    { b with next_subgrid := some n }

/-- The spec's error taxonomy for the `ValueError`s raised by `board.py`. -/
inductive MoveError
  | OutOfRange
  | InvalidPlayer
  | CellOccupiedOrWrongSubgrid
  | InvalidSubgridShape
deriving DecidableEq

/-- `update_cell(index, value)`.  Errors carry the board state held at the
moment of the raise; all raises in the source precede the first write. -/
def update_cell (b : Board) (index value : Nat) :
    Except (MoveError × Board) Board :=
  if ¬ index < 81 then .error (.OutOfRange, b)
  else if ¬ (value = 0 ∨ value = 1 ∨ value = 2) then .error (.InvalidPlayer, b)
  else
    let row := (index_to_position index 9).1
    let col := (index_to_position index 9).2
    if ¬ is_valid_move b row col then .error (.CellOccupiedOrWrongSubgrid, b)
    else
      let b1 : Board := { b with board := setCell b.board row col value }
      let b2 := check_subgrid_winner b1 ((row / 3) * 3 + col / 3)
      let b3 := update_next_subgrid b2 row col
      .ok (check_winner b3 value)

/-- `update_cell_in_subgrid(subgrid_index, subgrid_index_flat, value)`. -/
def update_cell_in_subgrid (b : Board) (s f value : Nat) :
    Except (MoveError × Board) Board :=
  if ¬ s < 9 then .error (.OutOfRange, b)
  else if ¬ f < 9 then .error (.OutOfRange, b)
  else if ¬ (value = 0 ∨ value = 1 ∨ value = 2) then .error (.InvalidPlayer, b)
  else
    let lr := (index_to_position f 3).1
    let lc := (index_to_position f 3).2
    let gr := (s / 3) * 3 + lr
    let gc := (s % 3) * 3 + lc
    if ¬ is_valid_move b gr gc then .error (.CellOccupiedOrWrongSubgrid, b)
    else
      let b1 : Board := { b with board := setCell b.board gr gc value }
      let b2 := check_subgrid_winner b1 s
      let b3 := update_next_subgrid b2 gr gc
      .ok (check_winner b3 value)

/-- Overwrite one row segment of 3 cells starting at (r, c0) with xs. -/
def writeRow3 (bd : List (List Nat)) (r c0 : Nat) (xs : List Nat) :
    List (List Nat) :=
  setCell (setCell (setCell bd r c0 (xs.getD 0 0))
    r (c0 + 1) (xs.getD 1 0)) r (c0 + 2) (xs.getD 2 0)

/-- Overwrite the 3×3 block with top-left corner (r0, c0) with g
(the numpy slice assignment `board[r0:r0+3, c0:c0+3] = g`). -/
def write3x3 (bd : List (List Nat)) (r0 c0 : Nat) (g : List (List Nat)) :
    List (List Nat) :=
  writeRow3 (writeRow3 (writeRow3 bd r0 c0 (g.getD 0 []))
    (r0 + 1) c0 (g.getD 1 [])) (r0 + 2) c0 (g.getD 2 [])

/-- `set_subgrid(subgrid_index, subgrid)`: shape check, then bulk slice
assignment of the 9 cells of subgrid `subgrid_index`; nothing else changes. -/
def set_subgrid (b : Board) (s : Nat) (g : List (List Nat)) :
    Except (MoveError × Board) Board :=
  if ¬ (g.length = 3 ∧ ∀ r ∈ g, r.length = 3) then
    .error (.InvalidSubgridShape, b)
  else
    .ok { b with board := write3x3 b.board ((s / 3) * 3) ((s % 3) * 3) g }

/-- Fold a list of (flat index, value) moves through `update_cell`,
aborting on the first error. -/
def applyMoves (b : Board) : List (Nat × Nat) → Option Board
  | [] => some b
  | (i, v) :: rest =>
    match update_cell b i v with
    | .ok b' => applyMoves b' rest
    | .error _ => none

/-- States reachable from a fresh board through successful calls of either
mutating entry point. -/
inductive Reachable : Board → Prop
  | init : Reachable Board.init
  | step (b b' : Board) (i v : Nat) :
      Reachable b → update_cell b i v = .ok b' → Reachable b'
  | stepSub (b b' : Board) (s f v : Nat) :
      Reachable b → update_cell_in_subgrid b s f v = .ok b' → Reachable b'

/-- Well-formed board data: a 9×9 grid and 9 subgrid-status slots, as
established by `Board.__init__`. -/
def WF (b : Board) : Prop :=
  b.board.length = 9 ∧ (∀ row ∈ b.board, row.length = 9) ∧
    b.subgrid_wins.length = 9

instance (b : Board) : Decidable (WF b) := by
  unfold WF; infer_instance

/-! ### List update lemmas -/

theorem getD_set_self_of_lt {α : Type} (l : List α) (i : Nat) (a d : α)
    (h : i < l.length) : (l.set i a).getD i d = a := by
  simp [List.getD_eq_getElem?_getD, List.getElem?_set_self h]

theorem getD_set_ne {α : Type} (l : List α) {i j : Nat} (a d : α)
    (h : i ≠ j) : (l.set i a).getD j d = l.getD j d := by
  simp [List.getD_eq_getElem?_getD, List.getElem?_set_ne h]

theorem set_getD_self {α : Type} (l : List α) (i : Nat) (d : α) :
    l.set i (l.getD i d) = l := by
  induction l generalizing i with
  | nil => simp
  | cons x xs ih =>
    cases i with
    | zero => simp
    | succ n =>
      show x :: xs.set n ((x :: xs).getD (n + 1) d) = x :: xs
      rw [List.getD_cons_succ, ih]

/-! ### Cell access lemmas -/

theorem getCell_setCell_ne (g : List (List Nat)) {r c r' c' : Nat} (v : Nat)
    (h : ¬ (r' = r ∧ c' = c)) :
    getCell (setCell g r c v) r' c' = getCell g r' c' := by
  unfold getCell setCell
  by_cases hr : r' = r
  · subst hr
    have hc : c ≠ c' := fun hc => h ⟨rfl, hc.symm⟩
    by_cases hlen : r' < g.length
    · rw [getD_set_self_of_lt _ _ _ _ hlen, getD_set_ne _ _ _ hc]
    · rw [List.set_eq_of_length_le (Nat.le_of_not_lt hlen)]
  · rw [getD_set_ne _ _ _ (fun hh => hr hh.symm)]

theorem getCell_setCell_self (g : List (List Nat)) {r c : Nat} (v : Nat)
    (hr : r < g.length) (hc : c < (g.getD r []).length) :
    getCell (setCell g r c v) r c = v := by
  unfold getCell setCell
  rw [getD_set_self_of_lt _ _ _ _ hr, getD_set_self_of_lt _ _ _ _ hc]

theorem setCell_self_eq (g : List (List Nat)) (r c : Nat)
    (h : getCell g r c = 0) : setCell g r c 0 = g := by
  unfold getCell at h
  unfold setCell
  rw [← h, set_getD_self, set_getD_self]

theorem length_setCell (g : List (List Nat)) (r c v : Nat) :
    (setCell g r c v).length = g.length := by
  unfold setCell; exact List.length_set ..

theorem rows_setCell (g : List (List Nat)) (r c v : Nat)
    (H : ∀ row ∈ g, row.length = 9) :
    ∀ row ∈ setCell g r c v, row.length = 9 := by
  unfold setCell
  by_cases hr : r < g.length
  · intro row hm
    rcases List.mem_or_eq_of_mem_set hm with h | h
    · exact H _ h
    · subst h
      rw [List.length_set]
      have : g.getD r [] = g[r] := List.getD_eq_getElem g [] hr
      rw [this]
      exact H _ (List.getElem_mem hr)
  · rw [List.set_eq_of_length_le (Nat.le_of_not_lt hr)]
    exact H

/-! ### Projection lemmas for the mutation pipeline -/

@[simp] theorem check_winner_board (b : Board) (p : Nat) :
    (check_winner b p).board = b.board := by
  unfold check_winner; split <;> rfl

@[simp] theorem check_winner_wins (b : Board) (p : Nat) :
    (check_winner b p).subgrid_wins = b.subgrid_wins := by
  unfold check_winner; split <;> rfl

@[simp] theorem check_winner_next (b : Board) (p : Nat) :
    (check_winner b p).next_subgrid = b.next_subgrid := by
  unfold check_winner; split <;> rfl

@[simp] theorem update_next_board (b : Board) (row col : Nat) :
    (update_next_subgrid b row col).board = b.board := by
  simp only [update_next_subgrid]; split <;> rfl

@[simp] theorem update_next_wins (b : Board) (row col : Nat) :
    (update_next_subgrid b row col).subgrid_wins = b.subgrid_wins := by
  simp only [update_next_subgrid]; split <;> rfl

@[simp] theorem update_next_winner (b : Board) (row col : Nat) :
    (update_next_subgrid b row col).overall_winner = b.overall_winner := by
  simp only [update_next_subgrid]; split <;> rfl

@[simp] theorem check_subgrid_board (b : Board) (s : Nat) :
    (check_subgrid_winner b s).board = b.board := by
  unfold check_subgrid_winner; split <;> [rfl; split <;> rfl]

@[simp] theorem check_subgrid_overall (b : Board) (s : Nat) :
    (check_subgrid_winner b s).overall_winner = b.overall_winner := by
  unfold check_subgrid_winner; split <;> [rfl; split <;> rfl]

@[simp] theorem check_subgrid_next (b : Board) (s : Nat) :
    (check_subgrid_winner b s).next_subgrid = b.next_subgrid := by
  unfold check_subgrid_winner; split <;> [rfl; split <;> rfl]

/-! ### Success-case inversion for the two mutating entry points -/

/-- The shared effect pipeline of a successful move at (row, col): write the
cell, re-check the containing subgrid, recompute the constraint, re-check the
overall winner. -/
def applyMove (b : Board) (row col v : Nat) : Board :=
  check_winner
    (update_next_subgrid
      (check_subgrid_winner { b with board := setCell b.board row col v }
        ((row / 3) * 3 + col / 3))
      row col) v

theorem update_cell_ok_iff (b b' : Board) (i v : Nat) :
    update_cell b i v = .ok b' ↔
      i < 81 ∧ (v = 0 ∨ v = 1 ∨ v = 2) ∧
        is_valid_move b (i / 9) (i % 9) = true ∧
        b' = applyMove b (i / 9) (i % 9) v := by
  simp only [update_cell, index_to_position, applyMove]
  split_ifs with h1 h2 h3 <;> simp_all
  exact eq_comm

/-! ### Characterizations of the validity check and the line scans -/

theorem is_valid_move_iff (b : Board) (row col : Nat) :
    is_valid_move b row col = true ↔
      ((b.next_subgrid = none ∨
          b.next_subgrid = some ((row / 3) * 3 + col / 3)) ∧
        getCell b.board row col = 0) := by
  cases h : b.next_subgrid with
  | none => simp [is_valid_move, h]
  | some s =>
    simp [is_valid_move, h]
    intro
    constructor <;> (intro hh; simp [hh])

theorem subgridHasLine_iff (g : List (List Nat)) (s p : Nat) :
    subgridHasLine g s p = true ↔
      ((∃ i, i < 3 ∧ ∀ j, j < 3 →
          getCell g ((s / 3) * 3 + i) ((s % 3) * 3 + j) = p) ∨
       (∃ i, i < 3 ∧ ∀ j, j < 3 →
          getCell g ((s / 3) * 3 + j) ((s % 3) * 3 + i) = p) ∨
       (∀ i, i < 3 → getCell g ((s / 3) * 3 + i) ((s % 3) * 3 + i) = p) ∨
       (∀ i, i < 3 →
          getCell g ((s / 3) * 3 + i) ((s % 3) * 3 + (2 - i)) = p)) := by
  simp [subgridHasLine, List.any_eq_true, List.all_eq_true, List.mem_range]
  rw [or_assoc, or_assoc]

theorem overallHasLine_iff (g : List (List Nat)) (p : Nat) :
    overallHasLine g p = true ↔
      ((∃ i, i < 9 ∧ ∀ j, j < 9 → getCell g i j = p) ∨
       (∃ i, i < 9 ∧ ∀ j, j < 9 → getCell g j i = p) ∨
       (∀ i, i < 9 → getCell g i i = p) ∨
       (∀ i, i < 9 → getCell g i (8 - i) = p)) := by
  simp [overallHasLine, List.any_eq_true, List.all_eq_true, List.mem_range]
  rw [or_assoc, or_assoc]

/-- A cell holding a player-1 mark is untouched by a write into a cell that
currently holds 0. -/
theorem keep_one {g : List (List Nat)} {r c a d : Nat} (v : Nat)
    (h0 : getCell g r c = 0) (h1 : getCell g a d = 1) :
    getCell (setCell g r c v) a d = 1 := by
  have hne : ¬ (a = r ∧ d = c) := by
    rintro ⟨rfl, rfl⟩; rw [h0] at h1; exact absurd h1 (by decide)
  rw [getCell_setCell_ne g v hne]; exact h1

/-- A completed player-1 line in a subgrid survives any write into a cell
that currently holds 0 (occupied cells are never overwritten by moves). -/
theorem subgridHasLine_one_persist (g : List (List Nat)) {r c : Nat}
    (v s : Nat) (h0 : getCell g r c = 0)
    (hl : subgridHasLine g s 1 = true) :
    subgridHasLine (setCell g r c v) s 1 = true := by
  rw [subgridHasLine_iff] at hl ⊢
  rcases hl with ⟨i, hi, hrow⟩ | ⟨i, hi, hcol⟩ | hdiag | hanti
  · exact Or.inl ⟨i, hi, fun j hj => keep_one v h0 (hrow j hj)⟩
  · exact Or.inr (Or.inl ⟨i, hi, fun j hj => keep_one v h0 (hcol j hj)⟩)
  · exact Or.inr (Or.inr (Or.inl fun i hi => keep_one v h0 (hdiag i hi)))
  · exact Or.inr (Or.inr (Or.inr fun i hi => keep_one v h0 (hanti i hi)))

/-! ### Field characterizations of a successful move -/

theorem applyMove_board (b : Board) (row col v : Nat) :
    (applyMove b row col v).board = setCell b.board row col v := by
  simp [applyMove]

theorem applyMove_wins_char (b : Board) (row col v : Nat) :
    (applyMove b row col v).subgrid_wins =
      if subgridHasLine (setCell b.board row col v)
          ((row / 3) * 3 + col / 3) 1 = true
      then b.subgrid_wins.set ((row / 3) * 3 + col / 3) 1
      else if subgridHasLine (setCell b.board row col v)
          ((row / 3) * 3 + col / 3) 2 = true
      then b.subgrid_wins.set ((row / 3) * 3 + col / 3) 2
      else b.subgrid_wins := by
  simp only [applyMove, check_winner_wins, update_next_wins,
    check_subgrid_winner]
  split_ifs <;> rfl

theorem update_next_char (b : Board) (row col : Nat) :
    (update_next_subgrid b row col).next_subgrid =
      if is_subgrid_full b ((row % 3) * 3 + col % 3)
          || b.subgrid_wins.getD ((row % 3) * 3 + col % 3) 0 != 0
      then none else some ((row % 3) * 3 + col % 3) := by
  simp only [update_next_subgrid]
  split_ifs <;> rfl

theorem is_subgrid_full_congr (b1 b2 : Board) (s : Nat)
    (h : b1.board = b2.board) :
    is_subgrid_full b1 s = is_subgrid_full b2 s := by
  unfold is_subgrid_full; rw [h]

theorem applyMove_next_char (b : Board) (row col v : Nat) :
    (applyMove b row col v).next_subgrid =
      if is_subgrid_full (applyMove b row col v) ((row % 3) * 3 + col % 3)
          || (applyMove b row col v).subgrid_wins.getD
              ((row % 3) * 3 + col % 3) 0 != 0
      then none else some ((row % 3) * 3 + col % 3) := by
  have h1 : applyMove b row col v =
      check_winner (update_next_subgrid
        (check_subgrid_winner { b with board := setCell b.board row col v }
          ((row / 3) * 3 + col / 3)) row col) v := rfl
  rw [h1, check_winner_next, update_next_char]
  have hfull : is_subgrid_full
      (check_winner (update_next_subgrid
        (check_subgrid_winner { b with board := setCell b.board row col v }
          ((row / 3) * 3 + col / 3)) row col) v)
      ((row % 3) * 3 + col % 3) =
      is_subgrid_full
        (check_subgrid_winner { b with board := setCell b.board row col v }
          ((row / 3) * 3 + col / 3))
        ((row % 3) * 3 + col % 3) :=
    is_subgrid_full_congr _ _ _ (by simp)
  rw [hfull]
  simp

theorem applyMove_winner_char (b : Board) (row col v : Nat) :
    (applyMove b row col v).overall_winner =
      if overallHasLine (setCell b.board row col v) v then v
      else b.overall_winner := by
  simp only [applyMove, check_winner, update_next_board, check_subgrid_board]
  split_ifs <;> simp

/-! ### The two entry points compute the same global move -/

theorem update_cell_in_subgrid_eq (b : Board) (s f v : Nat)
    (hs : s < 9) (hf : f < 9) :
    update_cell_in_subgrid b s f v =
      update_cell b (((s / 3) * 3 + f / 3) * 9 + ((s % 3) * 3 + f % 3)) v := by
  have hidx : ((s / 3) * 3 + f / 3) * 9 + ((s % 3) * 3 + f % 3) < 81 := by
    omega
  have hdiv : (((s / 3) * 3 + f / 3) * 9 + ((s % 3) * 3 + f % 3)) / 9 =
      (s / 3) * 3 + f / 3 := by omega
  have hmod : (((s / 3) * 3 + f / 3) * 9 + ((s % 3) * 3 + f % 3)) % 9 =
      (s % 3) * 3 + f % 3 := by omega
  have hsub : (((s / 3) * 3 + f / 3) / 3) * 3 + ((s % 3) * 3 + f % 3) / 3 = s := by
    omega
  simp only [update_cell, update_cell_in_subgrid, index_to_position, hdiv, hmod]
  rw [if_neg (not_not_intro hs), if_neg (not_not_intro hf),
    if_neg (not_not_intro hidx), hsub]

theorem update_sub_ok_bounds (b b' : Board) (s f v : Nat)
    (h : update_cell_in_subgrid b s f v = .ok b') : s < 9 ∧ f < 9 := by
  by_cases hs : s < 9
  · by_cases hf : f < 9
    · exact ⟨hs, hf⟩
    · simp [update_cell_in_subgrid, hs, hf] at h
  · simp [update_cell_in_subgrid, hs] at h

/-! ### The reachable-state invariant: a recorded player-1 subgrid win is
backed by an actual player-1 line in that subgrid -/

def Inv (b : Board) : Prop :=
  b.subgrid_wins.length = 9 ∧
    ∀ s : Nat, b.subgrid_wins.getD s 0 = 1 →
      subgridHasLine b.board s 1 = true

theorem inv_init : Inv Board.init := by
  constructor
  · simp [Board.init]
  · intro s hs
    exfalso
    have hrep : Board.init.subgrid_wins = List.replicate 9 0 := rfl
    rw [hrep, List.getD_eq_getElem?_getD, List.getElem?_replicate] at hs
    split at hs <;> simp_all

theorem inv_step (b b' : Board) (i v : Nat) (hInv : Inv b)
    (hok : update_cell b i v = .ok b') : Inv b' := by
  rw [update_cell_ok_iff] at hok
  obtain ⟨hi, hv, hval, rfl⟩ := hok
  obtain ⟨hlen, hwin⟩ := hInv
  have h0 : getCell b.board (i / 9) (i % 9) = 0 :=
    ((is_valid_move_iff b _ _).mp hval).2
  have hm9 : (i / 9 / 3) * 3 + (i % 9) / 3 < 9 := by omega
  constructor
  · rw [applyMove_wins_char]
    split_ifs <;> simp [List.length_set, hlen]
  · intro s hs
    rw [applyMove_board]
    rw [applyMove_wins_char] at hs
    by_cases hsm : s = (i / 9 / 3) * 3 + (i % 9) / 3
    · subst hsm
      split_ifs at hs with hA hB
      · exact hA
      · rw [getD_set_self_of_lt _ _ _ _ (by omega)] at hs
        exact absurd hs (by decide)
      · exact subgridHasLine_one_persist _ _ _ h0 (hwin _ hs)
    · split_ifs at hs with hA hB
      · rw [getD_set_ne _ _ _ (fun hh => hsm hh.symm)] at hs
        exact subgridHasLine_one_persist _ _ _ h0 (hwin _ hs)
      · rw [getD_set_ne _ _ _ (fun hh => hsm hh.symm)] at hs
        exact subgridHasLine_one_persist _ _ _ h0 (hwin _ hs)
      · exact subgridHasLine_one_persist _ _ _ h0 (hwin _ hs)

theorem reachable_inv (b : Board) (h : Reachable b) : Inv b := by
  induction h with
  | init => exact inv_init
  | step b b' i v hr hok ih => exact inv_step b b' i v ih hok
  | stepSub b b' s f v hr hok ih =>
    obtain ⟨hs, hf⟩ := update_sub_ok_bounds b b' s f v hok
    rw [update_cell_in_subgrid_eq b s f v hs hf] at hok
    exact inv_step b b' _ v ih hok

/-- On an invariant-satisfying state, one successful `update_cell` keeps a
recorded player-1 subgrid win, and moves a recorded player-2 win only to a
player value (never back to undecided). -/
theorem wins_mono (b b' : Board) (i v s : Nat) (hInv : Inv b) (hs9 : s < 9)
    (hok : update_cell b i v = .ok b') :
    (b.subgrid_wins.getD s 0 = 1 → b'.subgrid_wins.getD s 0 = 1) ∧
    (b.subgrid_wins.getD s 0 = 2 →
      b'.subgrid_wins.getD s 0 = 1 ∨ b'.subgrid_wins.getD s 0 = 2) := by
  rw [update_cell_ok_iff] at hok
  obtain ⟨hi, hv, hval, rfl⟩ := hok
  obtain ⟨hlen, hwin⟩ := hInv
  have h0 : getCell b.board (i / 9) (i % 9) = 0 :=
    ((is_valid_move_iff b _ _).mp hval).2
  have hm9 : (i / 9 / 3) * 3 + (i % 9) / 3 < 9 := by omega
  rw [applyMove_wins_char]
  by_cases hsm : s = (i / 9 / 3) * 3 + (i % 9) / 3
  · subst hsm
    constructor
    · intro h1
      have hline : subgridHasLine (setCell b.board (i / 9) (i % 9) v)
          ((i / 9 / 3) * 3 + (i % 9) / 3) 1 = true :=
        subgridHasLine_one_persist _ _ _ h0 (hwin _ h1)
      rw [if_pos hline, getD_set_self_of_lt _ _ _ _ (by omega)]
    · intro _
      split_ifs with hA hB
      · exact Or.inl (getD_set_self_of_lt _ _ _ _ (by omega))
      · exact Or.inr (getD_set_self_of_lt _ _ _ _ (by omega))
      · exact Or.inr (by assumption)
  · have hne : ∀ a : Nat,
        (b.subgrid_wins.set ((i / 9 / 3) * 3 + (i % 9) / 3) a).getD s 0 =
          b.subgrid_wins.getD s 0 :=
      fun a => getD_set_ne _ _ _ (fun hh => hsm hh.symm)
    constructor <;> intro h
    · split_ifs
      · rw [hne]; exact h
      · rw [hne]; exact h
      · exact h
    · split_ifs
      · rw [hne]; exact Or.inr h
      · rw [hne]; exact Or.inr h
      · exact Or.inr h

/-! ### Cell-level description of the bulk subgrid write -/

/-- 9×9 shape of the grid component. -/
def Shape (g : List (List Nat)) : Prop :=
  g.length = 9 ∧ ∀ row ∈ g, row.length = 9

theorem shape_setCell (g : List (List Nat)) (r c v : Nat) (h : Shape g) :
    Shape (setCell g r c v) := by
  obtain ⟨h1, h2⟩ := h
  exact ⟨by rw [length_setCell, h1], rows_setCell g r c v h2⟩

theorem getCell_setCell_self_of_shape (g : List (List Nat)) {r c : Nat}
    (v : Nat) (hsh : Shape g) (hr : r < 9) (hc : c < 9) :
    getCell (setCell g r c v) r c = v := by
  obtain ⟨h1, h2⟩ := hsh
  have hrl : r < g.length := by omega
  apply getCell_setCell_self g v hrl
  have : g.getD r [] = g[r] := List.getD_eq_getElem g [] hrl
  rw [this, h2 g[r] (List.getElem_mem hrl)]
  omega

theorem shape_writeRow3 (bd : List (List Nat)) (r c0 : Nat) (xs : List Nat)
    (h : Shape bd) : Shape (writeRow3 bd r c0 xs) :=
  shape_setCell _ _ _ _ (shape_setCell _ _ _ _ (shape_setCell _ _ _ _ h))

theorem getCell_writeRow3_ne (bd : List (List Nat)) (r c0 : Nat)
    (xs : List Nat) {r' c' : Nat} (h : r' ≠ r ∨ c' < c0 ∨ c0 + 3 ≤ c') :
    getCell (writeRow3 bd r c0 xs) r' c' = getCell bd r' c' := by
  unfold writeRow3
  rw [getCell_setCell_ne _ _ (by omega), getCell_setCell_ne _ _ (by omega),
    getCell_setCell_ne _ _ (by omega)]

theorem getCell_writeRow3_self (bd : List (List Nat)) (r c0 : Nat)
    (xs : List Nat) (hsh : Shape bd) (hr : r < 9) (hc : c0 + 3 ≤ 9)
    (j : Nat) (hj : j < 3) :
    getCell (writeRow3 bd r c0 xs) r (c0 + j) = xs.getD j 0 := by
  unfold writeRow3
  interval_cases j
  · have h2 : ¬ (r = r ∧ c0 + 0 = c0 + 2) := by omega
    have h1 : ¬ (r = r ∧ c0 + 0 = c0 + 1) := by omega
    rw [getCell_setCell_ne _ _ h2, getCell_setCell_ne _ _ h1]
    have := getCell_setCell_self_of_shape bd (xs.getD 0 0) hsh hr
      (show c0 < 9 by omega)
    simpa using this
  · have h2 : ¬ (r = r ∧ c0 + 1 = c0 + 2) := by omega
    rw [getCell_setCell_ne _ _ h2]
    exact getCell_setCell_self_of_shape _ (xs.getD 1 0)
      (shape_setCell _ _ _ _ hsh) hr (by omega)
  · exact getCell_setCell_self_of_shape _ (xs.getD 2 0)
      (shape_setCell _ _ _ _ (shape_setCell _ _ _ _ hsh)) hr (by omega)

theorem getCell_write3x3_ne (bd : List (List Nat)) (r0 c0 : Nat)
    (g : List (List Nat)) {r c : Nat}
    (h : r < r0 ∨ r0 + 3 ≤ r ∨ c < c0 ∨ c0 + 3 ≤ c) :
    getCell (write3x3 bd r0 c0 g) r c = getCell bd r c := by
  unfold write3x3
  rw [getCell_writeRow3_ne _ _ _ _ (by omega),
    getCell_writeRow3_ne _ _ _ _ (by omega),
    getCell_writeRow3_ne _ _ _ _ (by omega)]

theorem getCell_write3x3_self (bd : List (List Nat)) (r0 c0 : Nat)
    (g : List (List Nat)) (hsh : Shape bd) (hr : r0 + 3 ≤ 9)
    (hc : c0 + 3 ≤ 9) (i j : Nat) (hi : i < 3) (hj : j < 3) :
    getCell (write3x3 bd r0 c0 g) (r0 + i) (c0 + j) =
      (g.getD i []).getD j 0 := by
  unfold write3x3
  interval_cases i
  · have h2 : r0 + 0 ≠ r0 + 2 ∨ c0 + j < c0 ∨ c0 + 3 ≤ c0 + j :=
      Or.inl (by omega)
    have h1 : r0 + 0 ≠ r0 + 1 ∨ c0 + j < c0 ∨ c0 + 3 ≤ c0 + j :=
      Or.inl (by omega)
    rw [getCell_writeRow3_ne _ _ _ _ h2, getCell_writeRow3_ne _ _ _ _ h1]
    have := getCell_writeRow3_self bd r0 c0 (g.getD 0 []) hsh
      (show r0 < 9 by omega) hc j hj
    simpa using this
  · have h2 : r0 + 1 ≠ r0 + 2 ∨ c0 + j < c0 ∨ c0 + 3 ≤ c0 + j :=
      Or.inl (by omega)
    rw [getCell_writeRow3_ne _ _ _ _ h2]
    exact getCell_writeRow3_self _ _ _ (g.getD 1 [])
      (shape_writeRow3 _ _ _ _ hsh) (by omega) hc j hj
  · exact getCell_writeRow3_self _ _ _ (g.getD 2 [])
      (shape_writeRow3 _ _ _ _ (shape_writeRow3 _ _ _ _ hsh))
      (by omega) hc j hj

/-- Overall-winner field of one successful `update_cell`: it becomes the
moved value v whenever v has a full 9-cell line in the updated grid
(including v = 0), and is otherwise unchanged. -/
theorem winner_char (b b' : Board) (i v : Nat)
    (hok : update_cell b i v = .ok b') :
    b'.overall_winner =
      if overallHasLine b'.board v then v else b.overall_winner := by
  rw [update_cell_ok_iff] at hok
  obtain ⟨hi, hv, hval, rfl⟩ := hok
  rw [applyMove_board]
  exact applyMove_winner_char b (i / 9) (i % 9) v

/-! ### Claims -/

/-- C1, amended: once a subgrid's recorded status is WonBy(PlayerOne) it is
kept by every further successful move, and a recorded WonBy(PlayerTwo) can
only stay WonBy(PlayerTwo) or be overwritten to WonBy(PlayerOne) (never
cleared to Undecided).  The original write-once claim fails because
`check_subgrid_winner` rescans with player 1 first and no guard. -/
theorem claim_C1 (b b' : Board) (a1 a2 a3 s : Nat)
    (hr : Reachable b) (hs : s < 9)
    (hok : update_cell b a1 a2 = .ok b' ∨
      update_cell_in_subgrid b a1 a2 a3 = .ok b') :
    (b.subgrid_wins.getD s 0 = 1 → b'.subgrid_wins.getD s 0 = 1) ∧
    (b.subgrid_wins.getD s 0 = 2 →
      b'.subgrid_wins.getD s 0 = 1 ∨ b'.subgrid_wins.getD s 0 = 2) := by
  have hInv := reachable_inv b hr
  rcases hok with hok | hok
  · exact wins_mono b b' a1 a2 s hInv hs hok
  · obtain ⟨h1, h2⟩ := update_sub_ok_bounds b b' a1 a2 a3 hok
    rw [update_cell_in_subgrid_eq b a1 a2 a3 h1 h2] at hok
    exact wins_mono b b' _ a3 s hInv hs hok

/-- C1 witness: a concrete application of the amended claim after one
successful move from the initial board. -/
theorem claim_C1_witness :
    ∃ b', update_cell Board.init 0 1 = .ok b' ∧
      ((Board.init.subgrid_wins.getD 0 0 = 1 →
          b'.subgrid_wins.getD 0 0 = 1) ∧
       (Board.init.subgrid_wins.getD 0 0 = 2 →
          b'.subgrid_wins.getD 0 0 = 1 ∨ b'.subgrid_wins.getD 0 0 = 2)) :=
  ⟨_, rfl, claim_C1 Board.init _ 0 1 0 0 Reachable.init (by decide)
    (Or.inl rfl)⟩

/-- C1 counterexample: a reachable 5-move sequence gives subgrid 0 to
player 2, and 5 further successful `update_cell` calls flip its recorded
winner to player 1 (player 1 completes the middle row of subgrid 0). -/
theorem claim_C1_counterexample :
    (applyMoves Board.init [(1, 2), (3, 2), (2, 2), (6, 2), (0, 2)]).map
        (fun b => b.subgrid_wins.getD 0 0) = some 2 ∧
    (applyMoves Board.init
        [(1, 2), (3, 2), (2, 2), (6, 2), (0, 2),
         (9, 1), (27, 1), (10, 1), (30, 1), (11, 1)]).map
        (fun b => b.subgrid_wins.getD 0 0) = some 1 :=
  ⟨rfl, rfl⟩

/-- C2, amended: for an in-range position, `update_cell` fails with
InvalidPlayer exactly when the value is outside {0, 1, 2}; the Empty
value 0 is accepted by the value check, contrary to the original claim. -/
theorem claim_C2 (b : Board) (i v : Nat) (hi : i < 81) :
    update_cell b i v = .error (.InvalidPlayer, b) ↔
      ¬ (v = 0 ∨ v = 1 ∨ v = 2) := by
  simp only [update_cell, index_to_position]
  split_ifs with h1 h2 <;> simp_all

/-- C2 witness: value 5 at an in-range position is rejected as
InvalidPlayer. -/
theorem claim_C2_witness :
    update_cell Board.init 0 5 = .error (.InvalidPlayer, Board.init) :=
  (claim_C2 Board.init 0 5 (by decide)).mpr (by decide)

/-- C2 counterexample: `update_cell` with value 0 at in-range position 0 on
the fresh board succeeds instead of failing with InvalidPlayer. -/
theorem claim_C2_counterexample :
    ∃ b', update_cell Board.init 0 0 = .ok b' :=
  ⟨_, rfl⟩

/-- C3, amended: after every successful move with value v (through either
entry point), OverallWinner equals v when v has a complete 9-cell line in
the updated grid — including v = 0, which can clear a recorded winner —
and is unchanged otherwise.  The original write-once claim fails. -/
theorem claim_C3 (b b' : Board) (i s f v : Nat) :
    (update_cell b i v = .ok b' →
      b'.overall_winner =
        if overallHasLine b'.board v then v else b.overall_winner) ∧
    (update_cell_in_subgrid b s f v = .ok b' →
      b'.overall_winner =
        if overallHasLine b'.board v then v else b.overall_winner) := by
  constructor
  · intro hok
    exact winner_char b b' i v hok
  · intro hok
    obtain ⟨h1, h2⟩ := update_sub_ok_bounds b b' s f v hok
    rw [update_cell_in_subgrid_eq b s f v h1 h2] at hok
    exact winner_char b b' _ v hok

/-- C3 witness: a concrete application of the amended claim after one
successful move from the initial board. -/
theorem claim_C3_witness :
    ∃ b', update_cell Board.init 0 1 = .ok b' ∧
      b'.overall_winner =
        if overallHasLine b'.board 1 then 1 else Board.init.overall_winner :=
  ⟨_, rfl, (claim_C3 Board.init _ 0 0 0 1).1 rfl⟩

/-- C3 counterexample: 16 successful moves give player 1 all of row 4, so
OverallWinner becomes 1; one further successful `update_cell` with value 0
at cell (0,0) re-runs `check_winner(0)`, row 0 is all Empty, and the
recorded winner is cleared back to 0. -/
theorem claim_C3_counterexample :
    (applyMoves Board.init
        [(36, 1), (37, 1), (30, 0), (9, 0), (38, 1), (33, 0), (10, 0),
         (39, 1), (10, 0), (40, 1), (41, 1), (42, 1), (11, 0), (43, 1),
         (11, 0), (44, 1)]).map (fun b => b.overall_winner) = some 1 ∧
    (applyMoves Board.init
        [(36, 1), (37, 1), (30, 0), (9, 0), (38, 1), (33, 0), (10, 0),
         (39, 1), (10, 0), (40, 1), (41, 1), (42, 1), (11, 0), (43, 1),
         (11, 0), (44, 1), (0, 0)]).map (fun b => b.overall_winner) =
      some 0 :=
  ⟨rfl, rfl⟩

/-- C4: after every successful `update_cell` at flat index i, the next
constraint is Forced((row mod 3)*3 + col mod 3) when that subgrid is
neither full nor already won in the resulting state, and Unconstrained
otherwise; the previous constraint is fully replaced. -/
theorem claim_C4 (b b' : Board) (i v : Nat)
    (hok : update_cell b i v = .ok b') :
    b'.next_subgrid =
      if is_subgrid_full b' ((i / 9 % 3) * 3 + i % 9 % 3)
          || b'.subgrid_wins.getD ((i / 9 % 3) * 3 + i % 9 % 3) 0 != 0
      then none
      else some ((i / 9 % 3) * 3 + i % 9 % 3) := by
  rw [update_cell_ok_iff] at hok
  obtain ⟨hi, hv, hval, rfl⟩ := hok
  exact applyMove_next_char b (i / 9) (i % 9) v

/-- C4 witness: a concrete application after the move at index 0 from the
initial board. -/
theorem claim_C4_witness :
    ∃ b', update_cell Board.init 0 1 = .ok b' ∧
      b'.next_subgrid =
        if is_subgrid_full b' ((0 / 9 % 3) * 3 + 0 % 9 % 3)
            || b'.subgrid_wins.getD ((0 / 9 % 3) * 3 + 0 % 9 % 3) 0 != 0
        then none
        else some ((0 / 9 % 3) * 3 + 0 % 9 % 3) :=
  ⟨_, rfl, claim_C4 Board.init _ 0 1 rfl⟩

/-- C5: whenever either mutating entry point fails with any error, the
board state carried at the raise equals the input state — all raises in
the source occur before any write, so failures are atomic. -/
theorem claim_C5 (b b2 : Board) (i v s f w : Nat) (e : MoveError) :
    (update_cell b i v = .error (e, b2) → b2 = b) ∧
    (update_cell_in_subgrid b s f w = .error (e, b2) → b2 = b) := by
  constructor
  · intro h
    simp only [update_cell, index_to_position] at h
    split_ifs at h <;> simp_all
  · intro h
    simp only [update_cell_in_subgrid, index_to_position] at h
    split_ifs at h <;> simp_all

/-- C5 witness: the out-of-range failure at index 100 carries the initial
board unchanged. -/
theorem claim_C5_witness :
    ∃ p : MoveError × Board, update_cell Board.init 100 1 = .error p ∧
      p.2 = Board.init :=
  ⟨(.OutOfRange, Board.init), rfl,
    (claim_C5 Board.init Board.init 100 1 0 0 1 .OutOfRange).1 rfl⟩

/-- C6: for in-range coordinates, `is_valid_move` is true exactly when the
cell is Empty and the constraint is absent or matches the cell's subgrid;
fullness and won-status of the target subgrid are not consulted. -/
theorem claim_C6 (b : Board) (row col : Nat) (_hr : row < 9)
    (_hc : col < 9) :
    is_valid_move b row col = true ↔
      (getCell b.board row col = 0 ∧
        (b.next_subgrid = none ∨
          b.next_subgrid = some ((row / 3) * 3 + col / 3))) := by
  rw [is_valid_move_iff]
  tauto

/-- C6 witness: concrete instance at cell (4, 4) of the initial board. -/
theorem claim_C6_witness :
    is_valid_move Board.init 4 4 = true ↔
      (getCell Board.init.board 4 4 = 0 ∧
        (Board.init.next_subgrid = none ∨
          Board.init.next_subgrid = some ((4 / 3) * 3 + 4 / 3))) :=
  claim_C6 Board.init 4 4 (by decide) (by decide)

/-- C7: `check_winner` records p as overall winner exactly when some full
line of 9 raw cell values — a row, a column, the main diagonal or the
anti-diagonal of the 9×9 grid — consists of p's mark; subgrid statuses
play no role, and on success only the overall-winner field changes. -/
theorem claim_C7 (b : Board) (p : Nat) :
    (check_winner b p = { b with overall_winner := p } ∧
      ((∃ i, i < 9 ∧ ∀ j, j < 9 → getCell b.board i j = p) ∨
       (∃ j, j < 9 ∧ ∀ i, i < 9 → getCell b.board i j = p) ∨
       (∀ i, i < 9 → getCell b.board i i = p) ∨
       (∀ i, i < 9 → getCell b.board i (8 - i) = p))) ∨
    (check_winner b p = b ∧
      ¬ ((∃ i, i < 9 ∧ ∀ j, j < 9 → getCell b.board i j = p) ∨
         (∃ j, j < 9 ∧ ∀ i, i < 9 → getCell b.board i j = p) ∨
         (∀ i, i < 9 → getCell b.board i i = p) ∨
         (∀ i, i < 9 → getCell b.board i (8 - i) = p))) := by
  by_cases h : overallHasLine b.board p = true
  · left
    constructor
    · unfold check_winner
      rw [if_pos h]
    · exact (overallHasLine_iff b.board p).mp h
  · right
    constructor
    · unfold check_winner
      rw [if_neg h]
    · exact fun hc => h ((overallHasLine_iff b.board p).mpr hc)

/-- C8: for a subgrid index and a local flat index both in range, the two
entry points agree exactly — same errors, same resulting state — with the
global flat index computed from the subgrid and local coordinates. -/
theorem claim_C8 (b : Board) (s f v : Nat) (hs : s < 9) (hf : f < 9) :
    update_cell_in_subgrid b s f v =
      update_cell b (((s / 3) * 3 + f / 3) * 9 + ((s % 3) * 3 + f % 3)) v :=
  update_cell_in_subgrid_eq b s f v hs hf

/-- C8 witness: concrete instance at subgrid 4, local cell 5. -/
theorem claim_C8_witness :
    update_cell_in_subgrid Board.init 4 5 1 =
      update_cell Board.init
        (((4 / 3) * 3 + 5 / 3) * 9 + ((4 % 3) * 3 + 5 % 3)) 1 :=
  claim_C8 Board.init 4 5 1 (by decide) (by decide)

/-- C9: a 0-valued move at an empty, constraint-permitted cell succeeds,
leaves every cell of the grid unchanged, and still recomputes the next
constraint from the target cell's local position. -/
theorem claim_C9 (b : Board) (i : Nat) (hi : i < 81)
    (hv : is_valid_move b (i / 9) (i % 9) = true) :
    ∃ b', update_cell b i 0 = .ok b' ∧ b'.board = b.board ∧
      b'.next_subgrid =
        if is_subgrid_full b' ((i / 9 % 3) * 3 + i % 9 % 3)
            || b'.subgrid_wins.getD ((i / 9 % 3) * 3 + i % 9 % 3) 0 != 0
        then none
        else some ((i / 9 % 3) * 3 + i % 9 % 3) := by
  refine ⟨applyMove b (i / 9) (i % 9) 0, ?_, ?_,
    applyMove_next_char b (i / 9) (i % 9) 0⟩
  · rw [update_cell_ok_iff]
    exact ⟨hi, Or.inl rfl, hv, rfl⟩
  · rw [applyMove_board]
    exact setCell_self_eq _ _ _ ((is_valid_move_iff b _ _).mp hv).2

/-- C9 witness: the 0-valued move at flat index 40 (cell (4,4)) on the
initial board. -/
theorem claim_C9_witness :
    ∃ b', update_cell Board.init 40 0 = .ok b' ∧
      b'.board = Board.init.board ∧
      b'.next_subgrid =
        if is_subgrid_full b' ((40 / 9 % 3) * 3 + 40 % 9 % 3)
            || b'.subgrid_wins.getD ((40 / 9 % 3) * 3 + 40 % 9 % 3) 0 != 0
        then none
        else some ((40 / 9 % 3) * 3 + 40 % 9 % 3) :=
  claim_C9 Board.init 40 (by decide) (by decide)

/-- C10: `set_subgrid` with a well-shaped 3×3 array overwrites exactly the
9 cells of the chosen subgrid with the given values — regardless of prior
contents, the constraint, or the values — and leaves the other 72 cells,
the subgrid statuses, the overall winner and the next constraint
untouched. -/
theorem claim_C10 (b : Board) (s : Nat) (g : List (List Nat))
    (hwf : WF b) (hs : s < 9)
    (hg : g.length = 3 ∧ ∀ r ∈ g, r.length = 3) :
    ∃ b', set_subgrid b s g = .ok b' ∧
      (∀ i j, i < 3 → j < 3 →
        getCell b'.board ((s / 3) * 3 + i) ((s % 3) * 3 + j) =
          (g.getD i []).getD j 0) ∧
      (∀ r c, r < 9 → c < 9 → (r / 3) * 3 + c / 3 ≠ s →
        getCell b'.board r c = getCell b.board r c) ∧
      b'.subgrid_wins = b.subgrid_wins ∧
      b'.overall_winner = b.overall_winner ∧
      b'.next_subgrid = b.next_subgrid := by
  obtain ⟨hlen, hrows, hwins⟩ := hwf
  have hsh : Shape b.board := ⟨hlen, hrows⟩
  refine ⟨{ b with
      board := write3x3 b.board ((s / 3) * 3) ((s % 3) * 3) g },
    ?_, ?_, ?_, rfl, rfl, rfl⟩
  · unfold set_subgrid
    rw [if_neg (not_not_intro hg)]
  · intro i j hi hj
    exact getCell_write3x3_self b.board _ _ g hsh (by omega) (by omega)
      i j hi hj
  · intro r c _ _ hne
    exact getCell_write3x3_ne b.board _ _ g (by omega)

/-- C10 witness: replacing subgrid 4 of the initial board with a mixed
(and rule-inconsistent) 3×3 block. -/
theorem claim_C10_witness :
    ∃ b', set_subgrid Board.init 4 [[1, 1, 1], [2, 2, 2], [0, 1, 2]] =
        .ok b' ∧
      (∀ i j, i < 3 → j < 3 →
        getCell b'.board ((4 / 3) * 3 + i) ((4 % 3) * 3 + j) =
          (([[1, 1, 1], [2, 2, 2], [0, 1, 2]] :
            List (List Nat)).getD i []).getD j 0) ∧
      (∀ r c, r < 9 → c < 9 → (r / 3) * 3 + c / 3 ≠ 4 →
        getCell b'.board r c = getCell Board.init.board r c) ∧
      b'.subgrid_wins = Board.init.subgrid_wins ∧
      b'.overall_winner = Board.init.overall_winner ∧
      b'.next_subgrid = Board.init.next_subgrid :=
  claim_C10 Board.init 4 [[1, 1, 1], [2, 2, 2], [0, 1, 2]] (by decide)
    (by decide) (by decide)

end UTTT
